import Mathlib

/-!
Verification of the foreign-value bridge in `src/js/glue.mjs`.

The bridge encodes host (JavaScript) values into 64-bit wire values
(raw IEEE-754 doubles on the numeric fast path, or quiet-NaN patterns
carrying an 8-bit type tag and a 32-bit id), keeps non-singleton values
in a growable reference-counted table, and marshals calls, constructors
and strings across the module boundary.

The shallow embedding below mirrors the source line by line:
machine integers are `Nat` with explicit masks, module memory is a
byte-addressed map, fallible host code runs in an explicit
state-and-exception passing style (`Except JsValue A × GlueState`),
and host primitives that live outside the repository (module exports,
the text encoder, host function bodies) are parameters in `GlueEnv`.
-/

/-! ### Wire-value constants and field extraction (glue.mjs lines 31-88) -/

def QUIET_NAN : Nat := 0x7ff8000000000000
def TY_MASK : Nat := (1 <<< 8) - 1
def ID_MASK : Nat := (1 <<< 32) - 1

def TY_DONT_CARE : Nat := 0
def TY_OBJECT : Nat := 1
def TY_FUNCTION : Nat := 2
def TY_STRING : Nat := 3

def ID_UNDEFINED : Nat := 1
def ID_NULL : Nat := 2
def ID_NAN : Nat := 3
def ID_TRUE : Nat := 4
def ID_FALSE : Nat := 5
def ID_GLOBAL : Nat := 6
def ID_GLUE : Nat := 7
def ID_MAX : Nat := 8

def rsValueFromTyId (ty id : Nat) : Nat :=
  QUIET_NAN ||| (ty <<< 32) ||| id

def rsValueTy (value : Nat) : Nat := (value >>> 32) &&& TY_MASK

def rsValueId (value : Nat) : Nat := value &&& ID_MASK

def rsValueIsPredefined (value : Nat) : Bool := rsValueId value < ID_MAX

def UNDEFINED : Nat := rsValueFromTyId TY_DONT_CARE ID_UNDEFINED
def NULL : Nat := rsValueFromTyId TY_DONT_CARE ID_NULL
def NAN : Nat := rsValueFromTyId TY_DONT_CARE ID_NAN
def TRUE : Nat := rsValueFromTyId TY_DONT_CARE ID_TRUE
def FALSE : Nat := rsValueFromTyId TY_DONT_CARE ID_FALSE
def GLOBAL : Nat := rsValueFromTyId TY_OBJECT ID_GLOBAL
def GLUE : Nat := rsValueFromTyId TY_OBJECT ID_GLUE

def rsValueFromTyIdx (ty idx : Nat) : Nat := rsValueFromTyId ty (idx + ID_MAX)

/-- IEEE-754 double NaN test on a 64-bit pattern: exponent field all ones
and non-zero mantissa.  This is the bit-level semantics of the host
primitive `Number.isNaN` applied to the double stored at the pattern. -/
def f64IsNaN (b : Nat) : Bool :=
  ((b >>> 52) &&& 0x7ff == 0x7ff) && ((b &&& 0xfffffffffffff) != 0)

/-! ### Module memory (the DataView accessors), byte-addressed, little endian -/

abbrev Mem : Type := Nat → Nat

/-- `DataView.setBigUint64(p, v, true)`: writes the 8 little-endian base-256
digits of `v` at addresses `p .. p+7`, all other bytes unchanged.
`setFloat64` with a non-NaN double writes the same bytes of its bit
pattern, so both source writes are this single operation on patterns. -/
def memSetU64 (m : Mem) (p v : Nat) : Mem :=
  fun q => if q < p ∨ p + 8 ≤ q then m q else v / 256 ^ (q - p) % 256

/-- `DataView.getBigUint64(p, true)` (and the bit pattern read by
`getFloat64`): assembles the 8 bytes at `p .. p+7` little-endian. -/
def memGetU64 (m : Mem) (p : Nat) : Nat :=
  m p + 256 * (m (p+1) + 256 * (m (p+2) + 256 * (m (p+3) + 256 *
    (m (p+4) + 256 * (m (p+5) + 256 * (m (p+6) + 256 * m (p+7)))))))

/-- `DataView.setUint32(p, v, true)`. -/
def memSetU32 (m : Mem) (p v : Nat) : Mem :=
  fun q => if q < p ∨ p + 4 ≤ q then m q else v / 256 ^ (q - p) % 256

/-- Byte-wise copy of a byte list at `p` (the `Uint8Array.set` in
`string_get`). -/
def memSetBytes (m : Mem) (p : Nat) : List Nat → Mem
  | [] => m
  | b :: rest => memSetBytes (fun q => if q = p then b % 256 else m q) (p+1) rest

/-! ### The host value universe

A closed model of the JavaScript values the bridge can see.  Host object
and function identities are abstracted as `Nat` tokens; `err` stands for
a host `Error` instance (as thrown by `assert` or a `RangeError` /
`TypeError` from the host runtime); `closure` is the wrapper produced by
`closure_new`, closing over a module table index and a context pointer. -/

inductive JsNumber where
  | nan : JsNumber
  | val (bits : Nat) : JsNumber
  deriving DecidableEq, Repr

inductive JsValue where
  | undef : JsValue
  | null : JsValue
  | boolean (b : Bool) : JsValue
  | number (n : JsNumber) : JsValue
  | str (s : String) : JsValue
  | obj (id : Nat) : JsValue
  | fn (id : Nat) : JsValue
  | globalObj : JsValue
  | glueObj : JsValue
  | err (msg : String) : JsValue
  | closure (fnIdx ctx : Nat) : JsValue
  deriving DecidableEq, Repr

/-- The host `typeof` operator on the modelled universe. -/
def jsTypeof : JsValue → String
  | .undef => "undefined"
  | .null => "object"
  | .boolean _ => "boolean"
  | .number _ => "number"
  | .str _ => "string"
  | .obj _ => "object"
  | .fn _ => "function"
  | .globalObj => "object"
  | .glueObj => "object"
  | .err _ => "object"
  | .closure _ _ => "function"

/-- Host ToString coercion (the default behaviours of the host runtime;
only its value on strings matters to any property proved below). -/
def jsToString : JsValue → String
  | .undef => "undefined"
  | .null => "null"
  | .boolean true => "true"
  | .boolean false => "false"
  | .number .nan => "NaN"
  | .number (.val b) => toString b
  | .str s => s
  | .obj _ => "[object Object]"
  | .fn _ => "function"
  | .globalObj => "[object global]"
  | .glueObj => "[object Object]"
  | .err m => m
  | .closure _ _ => "function"

/-- JS truthiness of a string: non-empty strings are truthy. -/
def strTruthy (s : String) : Bool := !s.isEmpty

/-- The tag chosen by the `switch (typeof jsValue)` in
`storeJsValueIntoRsValuePtr` (lines 153-167). -/
def jsTy : JsValue → Nat
  | .str _ => TY_STRING
  | .fn _ => TY_FUNCTION
  | .closure _ _ => TY_FUNCTION
  | .obj _ => TY_OBJECT
  | .err _ => TY_OBJECT
  | .globalObj => TY_OBJECT
  | .glueObj => TY_OBJECT
  | _ => TY_DONT_CARE

/-! ### Reference counts as JS array cells

A cell of `this.refCounts` is an array hole (`undef`), the number `NaN`
(the result of arithmetic on a hole), or an integer.  `x += 1` / `x -= 1`
and the comparisons follow JS number semantics. -/

inductive RcVal where
  | undef : RcVal
  | nan : RcVal
  | int (n : Int) : RcVal
  deriving DecidableEq, Repr

def rcAdd1 : RcVal → RcVal
  | .undef => .nan
  | .nan => .nan
  | .int n => .int (n + 1)

def rcSub1 : RcVal → RcVal
  | .undef => .nan
  | .nan => .nan
  | .int n => .int (n - 1)

/-- JS `count >= 0`: false on `NaN` (and on `undefined`). -/
def rcGeZero : RcVal → Bool
  | .int n => decide (0 ≤ n)
  | _ => false

/-! ### Bridge state and host environment -/

/-- The mutable state owned by the `Glue` instance: the externref value
table, the parallel reference counts, the free-index stack (top of stack
is the list head), and module memory. -/
structure GlueState where
  values : List JsValue
  refCounts : Nat → RcVal
  freeIndices : List Nat
  mem : Mem

/-- Host and module behaviour living outside `glue.mjs`: bodies of host
functions (`Reflect.apply` on a `fn` token), host constructors
(`Reflect.construct`), the module's indirect-call table entries invoked
by a closure wrapper, the module's exported `alloc`, and the
`TextEncoder` byte encoding. -/
structure GlueEnv where
  funcs : Nat → List JsValue → Except JsValue JsValue
  constructs : Nat → List JsValue → Except JsValue JsValue
  tableCall : Nat → Nat → Except JsValue JsValue
  moduleAlloc : Nat → Nat → Nat
  encodeStr : String → List Nat

/-- The Error thrown by `assert` (messages are immaterial and uniform). -/
def assertFail : JsValue := .err "assertion failed"

/-- Sequencing with JS exception propagation: state flows through, an
error short-circuits (later statements do not run). -/
def andThen {α β : Type} (x : Except JsValue α × GlueState)
    (f : α → GlueState → Except JsValue β × GlueState) :
    Except JsValue β × GlueState :=
  match x with
  | (.ok a, s) => f a s
  | (.error e, s) => (.error e, s)

/-- `try ... catch (err) ...`: the handler runs from the state at the
point of the throw; errors raised by the handler itself propagate. -/
def orCatch {α : Type} (x : Except JsValue α × GlueState)
    (h : JsValue → GlueState → Except JsValue α × GlueState) :
    Except JsValue α × GlueState :=
  match x with
  | (.ok a, s) => (.ok a, s)
  | (.error e, s) => h e s

/-! ### The lifecycle manager and codec (glue.mjs lines 78-195) -/

/-- `rsValueIdx` (lines 78-82): asserts the value is not predefined and
returns `id - ID_MAX`.  Pure in the state, so modelled in `Except`. -/
def rsValueIdx (value : Nat) : Except JsValue Nat :=
  if rsValueIsPredefined value then .error assertFail
  else .ok (rsValueId value - ID_MAX)

/-- `this.values.set(idx, v)`: a `WebAssembly.Table` set, which throws a
`RangeError` out of range. -/
def tableSet (idx : Nat) (v : JsValue) (s : GlueState) :
    Except JsValue Unit × GlueState :=
  if idx < s.values.length then
    (.ok (), { s with values := s.values.set idx v })
  else (.error (.err "RangeError"), s)

/-- `this.values.get(idx)`: throws a `RangeError` out of range. -/
def tableGet (idx : Nat) (s : GlueState) :
    Except JsValue JsValue × GlueState :=
  if idx < s.values.length then (.ok (s.values.getD idx .undef), s)
  else (.error (.err "RangeError"), s)

/-- The loop `for (let i = 0; i < count; i += 1) freeIndices.push(start + i)`
(lines 118-120) on a head-of-list stack: each push conses, so ascending
pushes leave the largest index on top. -/
def pushAsc (stack : List Nat) (start count : Nat) : List Nat :=
  match count with
  | 0 => stack
  | Nat.succ k => pushAsc (start :: stack) (start + 1) k

/-- The common tail of `allocValue`: store the value, set its count to 1,
return the index. -/
def allocFinish (idx : Nat) (value : JsValue) (s : GlueState) :
    Except JsValue Nat × GlueState :=
  andThen (tableSet idx value s) fun _ s1 =>
    (.ok idx, { s1 with refCounts := fun j => if j = idx then .int 1 else s1.refCounts j })

/-- `freeIndices.pop()` followed by the `assertNe(maybeIdx, undefined)`
and the store/count tail: an empty stack is the assertion failure. -/
def popAlloc (value : JsValue) (s : GlueState) :
    Except JsValue Nat × GlueState :=
  match s.freeIndices with
  | idx :: rest => allocFinish idx value { s with freeIndices := rest }
  | [] => (.error assertFail, s)

/-- `allocValue` (lines 111-130): pop a free index; when the free list
is empty first grow the table by `delta = max(1, oldLen)` (doubling,
minimum 1) and push the `delta` new indices in ascending order, then pop
again. -/
def allocValue (value : JsValue) (s : GlueState) :
    Except JsValue Nat × GlueState :=
  match s.freeIndices with
  | _ :: _ => popAlloc value s
  | [] =>
    popAlloc value
      { s with
        values := s.values ++ List.replicate (max 1 s.values.length) .undef,
        freeIndices := pushAsc s.freeIndices s.values.length (max 1 s.values.length) }

def memWrite (s : GlueState) (p v : Nat) : GlueState :=
  { s with mem := memSetU64 s.mem p v }

/-- `storeJsValueIntoRsValuePtr` (lines 131-171): the encoder.  The
`switch (jsValue)` singleton cases come first — note the source asserts
false on the global object and on the glue instance itself — then the
number fast path with NaN canonicalization, then the boxed path. -/
def storeJsValueIntoRsValuePtr (jsValue : JsValue) (rsValuePtr : Nat)
    (s : GlueState) : Except JsValue Unit × GlueState :=
  match jsValue with
  | .undef => (.ok (), memWrite s rsValuePtr UNDEFINED)
  | .null => (.ok (), memWrite s rsValuePtr NULL)
  | .boolean true => (.ok (), memWrite s rsValuePtr TRUE)
  | .boolean false => (.ok (), memWrite s rsValuePtr FALSE)
  | .globalObj => (.error assertFail, s)
  | .glueObj => (.error assertFail, s)
  | .number .nan => (.ok (), memWrite s rsValuePtr NAN)
  | .number (.val bits) => (.ok (), memWrite s rsValuePtr bits)
  | other =>
    andThen (allocValue other s) fun idx s1 =>
      (.ok (), memWrite s1 rsValuePtr (rsValueFromTyIdx (jsTy other) idx))

/-- `resolveJsValueFromRsValue` (lines 172-185): singleton dispatch, then
table lookup at `id - ID_MAX`. -/
def resolveJsValueFromRsValue (rsValue : Nat) (s : GlueState) :
    Except JsValue JsValue × GlueState :=
  if rsValue = UNDEFINED then (.ok .undef, s)
  else if rsValue = NULL then (.ok .null, s)
  else if rsValue = NAN then (.ok (.number .nan), s)
  else if rsValue = TRUE then (.ok (.boolean true), s)
  else if rsValue = FALSE then (.ok (.boolean false), s)
  else if rsValue = GLOBAL then (.ok .globalObj, s)
  else if rsValue = GLUE then (.ok .glueObj, s)
  else
    match rsValueIdx rsValue with
    | .error e => (.error e, s)
    | .ok idx => tableGet idx s

/-- `resolveJsValueFromRsValuePtr` (lines 186-195): read the cell as a
double; a non-NaN read is the number itself, otherwise re-read the bits
and resolve the tagged value. -/
def resolveJsValueFromRsValuePtr (rsValuePtr : Nat) (s : GlueState) :
    Except JsValue JsValue × GlueState :=
  if f64IsNaN (memGetU64 s.mem rsValuePtr) then
    resolveJsValueFromRsValue (memGetU64 s.mem rsValuePtr) s
  else (.ok (.number (.val (memGetU64 s.mem rsValuePtr))), s)

/-! ### Lifecycle imports (glue.mjs lines 230-244) -/

/-- `increment_ref_count(ref)`: extract the dynamic index (asserting the
value is not predefined) and bump its count. -/
def increment_ref_count (ref : Nat) (s : GlueState) :
    Except JsValue Unit × GlueState :=
  match rsValueIdx ref with
  | .error e => (.error e, s)
  | .ok idx =>
    (.ok (), { s with refCounts := fun j => if j = idx then rcAdd1 (s.refCounts j) else s.refCounts j })

/-- `decrement_ref_count(ref)`: decrement, assert the new count is
non-negative, and on zero push the index onto the free list and clear
the slot. -/
def decrement_ref_count (ref : Nat) (s : GlueState) :
    Except JsValue Unit × GlueState :=
  match rsValueIdx ref with
  | .error e => (.error e, s)
  | .ok idx =>
    let c := rcSub1 (s.refCounts idx)
    let s1 : GlueState :=
      { s with refCounts := fun j => if j = idx then c else s.refCounts j }
    if rcGeZero c then
      if c = RcVal.int 0 then
        tableSet idx .undef { s1 with freeIndices := idx :: s1.freeIndices }
      else (.ok (), s1)
    else (.error assertFail, s1)

/-! ### Invocation semantics (the host side of `Reflect.apply` /
`Reflect.construct`) -/

/-- `Reflect.apply(target, undefined, args)` on the modelled universe:
host functions dispatch to their environment body; the wrapper made by
`closure_new` (an arrow function `(...args) => { callByPtr(ptr); }`)
discards the caller's arguments, re-enters the module function with the
captured context pointer as its sole argument, and yields `undefined`;
anything else raises a `TypeError`. -/
def jsApplyPure (env : GlueEnv) (target : JsValue) (args : List JsValue) :
    Except JsValue JsValue :=
  match target with
  | .fn id => env.funcs id args
  | .closure fnIdx ctx =>
    match env.tableCall fnIdx ctx with
    | .ok _ => .ok .undef
    | .error e => .error e
  | _ => .error (.err "TypeError")

/-- `Reflect.construct(target, args)`: host functions dispatch to their
environment constructor body; the arrow-function wrapper from
`closure_new` is not a constructor, so it (like every non-function)
raises a `TypeError`. -/
def jsConstructPure (env : GlueEnv) (target : JsValue) (args : List JsValue) :
    Except JsValue JsValue :=
  match target with
  | .fn id => env.constructs id args
  | _ => .error (.err "TypeError")

/-- The argument loop of `call` / `construct`:
`Array.from({length: n}, (_, i) => resolveJsValueFromRsValuePtr(argsPtr + i * 8))`,
resolving cells left to right starting at element index `i`. -/
def resolveArgsFrom (argsPtr i n : Nat) (s : GlueState) :
    Except JsValue (List JsValue) × GlueState :=
  match n with
  | 0 => (.ok [], s)
  | Nat.succ k =>
    andThen (resolveJsValueFromRsValuePtr (argsPtr + i * 8) s) fun v s1 =>
    andThen (resolveArgsFrom argsPtr (i + 1) k s1) fun vs s2 =>
    (.ok (v :: vs), s2)

def resolveArgs (argsPtr argsLen : Nat) (s : GlueState) :
    Except JsValue (List JsValue) × GlueState :=
  resolveArgsFrom argsPtr 0 argsLen s

/-! ### call / construct (glue.mjs lines 266-295) -/

/-- The `call` import: inside `try`, resolve the callee, resolve every
argument cell, invoke, encode the result and return true; `catch`
encodes the thrown value into the out-pointer and returns false. -/
def call (env : GlueEnv) (ref argsPtr argsLen outPtr : Nat)
    (s : GlueState) : Except JsValue Bool × GlueState :=
  orCatch
    (andThen (resolveJsValueFromRsValue ref s) fun target s1 =>
     andThen (resolveArgs argsPtr argsLen s1) fun args s2 =>
     andThen (jsApplyPure env target args, s2) fun ok s3 =>
     andThen (storeJsValueIntoRsValuePtr ok outPtr s3) fun _ s4 =>
     (.ok true, s4))
    (fun e s' =>
     andThen (storeJsValueIntoRsValuePtr e outPtr s') fun _ s'' =>
     (.ok false, s''))

/-- The `construct` import: identical shape, invoking as a constructor. -/
def construct (env : GlueEnv) (ref argsPtr argsLen outPtr : Nat)
    (s : GlueState) : Except JsValue Bool × GlueState :=
  orCatch
    (andThen (resolveJsValueFromRsValue ref s) fun target s1 =>
     andThen (resolveArgs argsPtr argsLen s1) fun args s2 =>
     andThen (jsConstructPure env target args, s2) fun ok s3 =>
     andThen (storeJsValueIntoRsValuePtr ok outPtr s3) fun _ s4 =>
     (.ok true, s4))
    (fun e s' =>
     andThen (storeJsValueIntoRsValuePtr e outPtr s') fun _ s'' =>
     (.ok false, s''))

/-! ### closure_new and string_get (glue.mjs lines 219-228, 298-309) -/

/-- `closure_new(callByPtrIdx, ptr, outPtr)`: wrap the module function at
`callByPtrIdx` with the captured context pointer `ptr` into a
host-callable value and encode it into the out-pointer. -/
def closure_new (callByPtrIdx ptr outPtr : Nat) (s : GlueState) :
    Except JsValue Unit × GlueState :=
  storeJsValueIntoRsValuePtr (.closure callByPtrIdx ptr) outPtr s

/-- `string_get(ref, ptrPtr, lenPtr)`.  The source line 300 reads
`assert(typeof value, "string")`: the string `typeof value` stands in
the truth slot of `assert` and `"string"` in the message slot, so the
condition is the truthiness of a non-empty string — the guard passes for
every value.  The bytes of the coerced value are then staged via the
module's `alloc` and the pointer and length stored. -/
def string_get (env : GlueEnv) (ref ptrPtr lenPtr : Nat) (s : GlueState) :
    Except JsValue Unit × GlueState :=
  andThen (resolveJsValueFromRsValue ref s) fun value s1 =>
  if strTruthy (jsTypeof value) then
    let buf := env.encodeStr (jsToString value)
    let ptr := env.moduleAlloc buf.length 1
    let m1 := memSetBytes s1.mem ptr buf
    let m2 := memSetU32 m1 ptrPtr ptr
    let m3 := memSetU32 m2 lenPtr buf.length
    (.ok (), { s1 with mem := m3 })
  else (.error assertFail, s1)

/-! ### Predicates and concrete instances used by the theorems -/

/-- Well-formedness of a bridge state: every free index is in range and
the table is far from the 32-bit id horizon. -/
def stateWF (s : GlueState) : Bool :=
  s.freeIndices.all (fun i => decide (i < s.values.length)) &&
  decide (s.values.length + 8 < 2 ^ 31)

/-- Values the encoder can store without asserting: everything except
the global object and the glue instance; a numeric value must carry a
genuine (64-bit, non-NaN) double pattern. -/
def storable : JsValue → Bool
  | .globalObj => false
  | .glueObj => false
  | .number .nan => true
  | .number (.val b) => decide (b < 2 ^ 64) && !f64IsNaN b
  | _ => true

/-- The value set quantified over by the round-trip claim C1 minus the
two values the encoder rejects: non-NaN numbers, strings, booleans,
null, undefined. -/
def roundTrippable : JsValue → Bool
  | .undef => true
  | .null => true
  | .boolean _ => true
  | .number (.val b) => decide (b < 2 ^ 64) && !f64IsNaN b
  | .str _ => true
  | _ => false

/-- The boxed (table-allocating) kinds: objects, functions, strings,
errors, closure wrappers. -/
def boxedKind : JsValue → Bool
  | .str _ => true
  | .obj _ => true
  | .fn _ => true
  | .err _ => true
  | .closure _ _ => true
  | _ => false

/-- A fresh bridge state: empty table, all-hole counts, empty free list,
zeroed module memory. -/
def initState : GlueState :=
  { values := [], refCounts := fun _ => .undef, freeIndices := [], mem := fun _ => 0 }

/-- A one-slot state whose table holds a plain host object at index 0. -/
def stateObj0 : GlueState :=
  { values := [.obj 0], refCounts := fun j => if j = 0 then .int 1 else .undef,
    freeIndices := [], mem := fun _ => 0 }

/-- A one-slot state whose table holds a host function at index 0. -/
def stateFn0 : GlueState :=
  { values := [.fn 0], refCounts := fun j => if j = 0 then .int 1 else .undef,
    freeIndices := [], mem := fun _ => 0 }

/-- A two-slot state with both slots allocated and an exhausted free
list (the next allocation must grow). -/
def stateTwo : GlueState :=
  { values := [.str "a", .str "b"],
    refCounts := fun j => if j < 2 then .int 1 else .undef,
    freeIndices := [], mem := fun _ => 0 }

/-- A host environment whose function 0 throws the string "boom" when
applied and when constructed. -/
def envBoom : GlueEnv :=
  { funcs := fun _ _ => .error (.str "boom"),
    constructs := fun _ _ => .error (.str "boom"),
    tableCall := fun _ _ => .ok .undef,
    moduleAlloc := fun _ _ => 0,
    encodeStr := fun _ => [] }

/-- A host environment whose function 0 throws the global object itself. -/
def envThrowsGlobal : GlueEnv :=
  { funcs := fun _ _ => .error .globalObj,
    constructs := fun _ _ => .error .globalObj,
    tableCall := fun _ _ => .ok .undef,
    moduleAlloc := fun _ _ => 0,
    encodeStr := fun _ => [] }

/-- A host environment with inert defaults (used where the claim only
exercises module-independent behaviour). -/
def envInert : GlueEnv :=
  { funcs := fun _ _ => .ok .undef,
    constructs := fun _ _ => .ok (.obj 99),
    tableCall := fun _ _ => .ok .undef,
    moduleAlloc := fun _ _ => 64,
    encodeStr := fun _ => [] }

/-! ### Bit-level facts about the wire encoding -/

theorem quietNaN_shift : QUIET_NAN = 0x7ff8 <<< 48 := by decide

theorem idMask_eq : ID_MASK = 2 ^ 32 - 1 := by decide

/-- The quiet-NaN seed has no bits below position 48. -/
theorem quietNaN_testBit_low (i : Nat) (h : i < 48) :
    Nat.testBit QUIET_NAN i = false := by
  rw [quietNaN_shift, Nat.testBit_shiftLeft]
  have h48 : ¬(48 ≤ i) := by omega
  simp [h48]

/-- The quiet-NaN seed has all eleven exponent bits set. -/
theorem quietNaN_testBit_exp (i : Nat) (h : i < 11) :
    Nat.testBit QUIET_NAN (52 + i) = true := by
  interval_cases i <;> decide

theorem quietNaN_testBit_51 : Nat.testBit QUIET_NAN 51 = true := by decide

/-- Extracting the id field of a composed tagged value recovers the id. -/
theorem rsValueId_mk (ty id : Nat) (hid : id < 2 ^ 32) :
    rsValueId (rsValueFromTyId ty id) = id := by
  unfold rsValueId rsValueFromTyId
  rw [idMask_eq, Nat.and_pow_two_sub_one_eq_mod]
  apply Nat.eq_of_testBit_eq
  intro i
  rw [Nat.testBit_mod_two_pow]
  by_cases h : i < 32
  · have hq : Nat.testBit QUIET_NAN i = false := quietNaN_testBit_low i (by omega)
    have h32 : ¬(32 ≤ i) := by omega
    simp [Nat.testBit_or, Nat.testBit_shiftLeft, h, hq, h32]
  · have hhi : Nat.testBit id i = false :=
      Nat.testBit_lt_two_pow
        (lt_of_lt_of_le hid (Nat.pow_le_pow_right (by norm_num) (by omega)))
    simp [h, hhi]

/-- A composed tagged value reads back as a NaN double pattern. -/
theorem f64IsNaN_mk (ty id : Nat) :
    f64IsNaN (rsValueFromTyId ty id) = true := by
  unfold f64IsNaN rsValueFromTyId
  rw [Bool.and_eq_true, beq_iff_eq, bne_iff_ne]
  constructor
  · rw [show (0x7ff : Nat) = 2 ^ 11 - 1 from by norm_num,
      Nat.and_pow_two_sub_one_eq_mod]
    apply Nat.eq_of_testBit_eq
    intro i
    rw [Nat.testBit_mod_two_pow, Nat.testBit_shiftRight,
      Nat.testBit_two_pow_sub_one]
    by_cases h : i < 11
    · have hq : Nat.testBit QUIET_NAN (52 + i) = true := quietNaN_testBit_exp i h
      simp [Nat.testBit_or, hq, h]
    · simp [h]
  · rw [show (0xfffffffffffff : Nat) = 2 ^ 52 - 1 from by norm_num,
      Nat.and_pow_two_sub_one_eq_mod]
    intro h0
    have hb : ((QUIET_NAN ||| ty <<< 32 ||| id) % 2 ^ 52).testBit 51 = true := by
      rw [Nat.testBit_mod_two_pow]
      simp [Nat.testBit_or, quietNaN_testBit_51]
    rw [h0] at hb
    simp at hb

/-- A composed tagged value fits in 64 bits. -/
theorem rsValueFromTyId_lt (ty id : Nat) (hty : ty < 256) (hid : id < 2 ^ 32) :
    rsValueFromTyId ty id < 2 ^ 64 := by
  unfold rsValueFromTyId
  apply Nat.or_lt_two_pow
  · apply Nat.or_lt_two_pow
    · decide
    · rw [Nat.shiftLeft_eq]
      have h32 : (2 : Nat) ^ 32 = 4294967296 := by norm_num
      have h64 : (2 : Nat) ^ 64 = 18446744073709551616 := by norm_num
      rw [h32, h64]
      omega
  · exact lt_trans hid (by norm_num)

/-! ### Memory round trip -/

/-- Reading back the eight bytes just written little-endian reassembles
the written 64-bit value. -/
theorem memSetU64_read_byte (m : Mem) (p v i : Nat) (h : i < 8) :
    memSetU64 m p v (p + i) = v / 256 ^ i % 256 := by
  unfold memSetU64
  rw [if_neg (by omega), Nat.add_sub_cancel_left]

theorem memGetU64_memSetU64 (m : Mem) (p v : Nat) (hv : v < 2 ^ 64) :
    memGetU64 (memSetU64 m p v) p = v := by
  have hr := memSetU64_read_byte m p v
  have h0 : memSetU64 m p v p = v % 256 := by
    simpa using hr 0 (by norm_num)
  simp only [memGetU64, h0, hr 1 (by norm_num), hr 2 (by norm_num),
    hr 3 (by norm_num), hr 4 (by norm_num), hr 5 (by norm_num),
    hr 6 (by norm_num), hr 7 (by norm_num)]
  have h64 : v < 18446744073709551616 := by
    calc v < 2 ^ 64 := hv
    _ = 18446744073709551616 := by norm_num
  norm_num
  omega

/-! ### List helper facts -/

theorem listGetDSet (l : List JsValue) (i : Nat) (v d : JsValue)
    (h : i < l.length) : (l.set i v).getD i d = v := by
  induction l generalizing i with
  | nil => simp at h
  | cons a t ih =>
    cases i with
    | zero => simp
    | succ k => simpa using ih k (by simpa using h)

theorem pushAsc_succ (stack : List Nat) (start k : Nat) :
    pushAsc stack start (k + 1) = (start + k) :: pushAsc stack start k := by
  induction k generalizing stack start with
  | zero => simp [pushAsc]
  | succ n ih =>
    show pushAsc (start :: stack) (start + 1) (n + 1) =
      (start + (n + 1)) :: pushAsc stack start (n + 1)
    rw [ih]
    have harith : start + 1 + n = start + (n + 1) := by omega
    rw [harith]
    rfl

/-! ### The resolvers read state but never write it -/

theorem resolveJsValueFromRsValue_ro (w : Nat) (s : GlueState) :
    (resolveJsValueFromRsValue w s).2 = s := by
  unfold resolveJsValueFromRsValue tableGet
  repeat' split
  all_goals rfl

theorem resolveJsValueFromRsValuePtr_ro (p : Nat) (s : GlueState) :
    (resolveJsValueFromRsValuePtr p s).2 = s := by
  by_cases h : f64IsNaN (memGetU64 s.mem p) = true
  · simp [resolveJsValueFromRsValuePtr, h, resolveJsValueFromRsValue_ro]
  · simp [resolveJsValueFromRsValuePtr, h]

theorem resolveArgsFrom_ro (argsPtr : Nat) :
    ∀ (n i : Nat) (s : GlueState), (resolveArgsFrom argsPtr i n s).2 = s := by
  intro n
  induction n with
  | zero => intro i s; rfl
  | succ k ih =>
    intro i s
    show (andThen (resolveJsValueFromRsValuePtr (argsPtr + i * 8) s) _).2 = s
    rcases hx : resolveJsValueFromRsValuePtr (argsPtr + i * 8) s with ⟨r, s1⟩
    have h1 : s1 = s := by
      have hro := resolveJsValueFromRsValuePtr_ro (argsPtr + i * 8) s
      rw [hx] at hro
      exact hro
    cases r with
    | error e => simp [andThen, hx, h1]
    | ok v =>
      simp only [andThen, hx]
      rcases hy : resolveArgsFrom argsPtr (i + 1) k s1 with ⟨r2, s2⟩
      have h2 : s2 = s1 := by
        have hro := ih (i + 1) s1
        rw [hy] at hro
        exact hro
      cases r2 <;> simp [andThen, hy, h1, h2]

theorem resolveArgs_ro (argsPtr argsLen : Nat) (s : GlueState) :
    (resolveArgs argsPtr argsLen s).2 = s :=
  resolveArgsFrom_ro argsPtr argsLen 0 s

/-! ### Allocation -/

/-- Popping a non-empty free stack whose top index is in range stores the
value at that index, sets its count to 1, and returns it. -/
theorem popAlloc_eq (v : JsValue) (s : GlueState) (idx : Nat) (rest : List Nat)
    (hf : s.freeIndices = idx :: rest) (hidx : idx < s.values.length) :
    popAlloc v s = (.ok idx,
      { values := s.values.set idx v,
        refCounts := fun j => if j = idx then .int 1 else s.refCounts j,
        freeIndices := rest,
        mem := s.mem }) := by
  simp only [popAlloc, hf, allocFinish, tableSet]
  simp [hidx, andThen]

/-- Specification of `allocValue` on a well-formed state: it succeeds,
the returned index is in range and below the id horizon, the slot now
holds the value, and module memory is untouched. -/
theorem allocValue_ok (v : JsValue) (s : GlueState) (hwf : stateWF s = true) :
    ∃ idx s1, allocValue v s = (.ok idx, s1) ∧
      idx + ID_MAX < 2 ^ 32 ∧
      idx < s1.values.length ∧
      s1.values.getD idx .undef = v ∧
      s1.mem = s.mem := by
  have hwf' := hwf
  unfold stateWF at hwf'
  rw [Bool.and_eq_true] at hwf'
  obtain ⟨hall, hlen⟩ := hwf'
  rw [decide_eq_true_eq] at hlen
  cases hfree : s.freeIndices with
  | cons idx rest =>
    have hidx : idx < s.values.length := by
      have hmem := List.all_eq_true.mp hall idx (by rw [hfree]; exact List.mem_cons_self _ _)
      simpa using hmem
    refine ⟨idx,
      { values := s.values.set idx v,
        refCounts := fun j => if j = idx then .int 1 else s.refCounts j,
        freeIndices := rest,
        mem := s.mem }, ?_, ?_, ?_, ?_, ?_⟩
    · unfold allocValue
      rw [hfree]
      exact popAlloc_eq v s idx rest hfree hidx
    · show idx + ID_MAX < 2 ^ 32
      unfold ID_MAX
      omega
    · simpa [List.length_set] using hidx
    · exact listGetDSet s.values idx v .undef hidx
    · rfl
  | nil =>
    set L := s.values.length with hL
    set δ := max 1 L with hδ
    have hδ1 : 1 ≤ δ := le_max_left 1 L
    have hδle : δ ≤ L + 1 := by
      rcases Nat.eq_zero_or_pos L with h0 | h0
      · simp [hδ, h0]
      · have : δ = L := Nat.max_eq_right h0
        omega
    have hpush : pushAsc ([] : List Nat) L δ =
        (L + (δ - 1)) :: pushAsc [] L (δ - 1) := by
      conv_lhs => rw [show δ = (δ - 1) + 1 from by omega]
      rw [pushAsc_succ]
    set sg : GlueState :=
      { s with
        values := s.values ++ List.replicate δ .undef,
        freeIndices := pushAsc [] L δ } with hsg
    have hglen : sg.values.length = L + δ := by
      simp [hsg, List.length_append, List.length_replicate, hL]
    have hgfree : sg.freeIndices = (L + (δ - 1)) :: pushAsc [] L (δ - 1) := by
      simp only [hsg]
      rw [hpush]
    have hgidx : L + (δ - 1) < sg.values.length := by
      rw [hglen]; omega
    refine ⟨L + (δ - 1),
      { values := sg.values.set (L + (δ - 1)) v,
        refCounts := fun j => if j = L + (δ - 1) then .int 1 else sg.refCounts j,
        freeIndices := pushAsc [] L (δ - 1),
        mem := sg.mem }, ?_, ?_, ?_, ?_, ?_⟩
    · unfold allocValue
      rw [hfree]
      exact popAlloc_eq v sg (L + (δ - 1)) (pushAsc [] L (δ - 1)) hgfree hgidx
    · show L + (δ - 1) + ID_MAX < 2 ^ 32
      unfold ID_MAX
      have h31 : (2 : Nat) ^ 31 ≤ 2 ^ 32 := by norm_num
      have hb : L + 8 < 2 ^ 31 := hlen
      have : (2 : Nat) ^ 31 + 2 ^ 31 = 2 ^ 32 := by norm_num
      omega
    · simpa [List.length_set] using hgidx
    · exact listGetDSet sg.values (L + (δ - 1)) v .undef hgidx
    · rfl

/-! ### The store/resolve round-trip engine -/

/-- Every tag the encoder classifies fits the 8-bit tag field. -/
theorem jsTy_lt (v : JsValue) : jsTy v < 256 := by
  cases v <;> simp [jsTy, TY_DONT_CARE, TY_OBJECT, TY_FUNCTION, TY_STRING]

/-- Resolving a tagged dynamic wire value reads exactly the table slot
`id - ID_MAX`. -/
theorem resolve_boxed (ty idx : Nat) (st : GlueState) (v : JsValue)
    (hidx : idx + ID_MAX < 2 ^ 32)
    (hlen : idx < st.values.length)
    (hval : st.values.getD idx .undef = v) :
    resolveJsValueFromRsValue (rsValueFromTyIdx ty idx) st = (.ok v, st) := by
  have hid : rsValueId (rsValueFromTyIdx ty idx) = idx + ID_MAX := by
    unfold rsValueFromTyIdx
    exact rsValueId_mk ty (idx + ID_MAX) hidx
  have hne : ∀ (c cid : Nat), rsValueId c = cid → cid < ID_MAX →
      rsValueFromTyIdx ty idx ≠ c := by
    intro c cid hc hcid heq
    rw [heq, hc] at hid
    unfold ID_MAX at hcid hid
    omega
  unfold resolveJsValueFromRsValue
  rw [if_neg (hne UNDEFINED 1 (by decide) (by decide)),
    if_neg (hne NULL 2 (by decide) (by decide)),
    if_neg (hne NAN 3 (by decide) (by decide)),
    if_neg (hne TRUE 4 (by decide) (by decide)),
    if_neg (hne FALSE 5 (by decide) (by decide)),
    if_neg (hne GLOBAL 6 (by decide) (by decide)),
    if_neg (hne GLUE 7 (by decide) (by decide))]
  have hpre : rsValueIsPredefined (rsValueFromTyIdx ty idx) = false := by
    unfold rsValueIsPredefined
    rw [hid]
    simp only [decide_eq_false_iff_not]
    unfold ID_MAX
    omega
  unfold rsValueIdx
  rw [hpre]
  simp only [Bool.false_eq_true, if_false]
  have hsub : rsValueId (rsValueFromTyIdx ty idx) - ID_MAX = idx := by
    rw [hid]; omega
  rw [hsub]
  unfold tableGet
  rw [if_pos hlen, hval]

/-- The boxed encode path (alloc then write the tagged pattern) round
trips through the decoder. -/
theorem alloc_write_resolve (st : GlueState) (ptr : Nat) (v : JsValue)
    (hwf : stateWF st = true) :
    ∃ s2, (andThen (allocValue v st) fun idx s1 =>
        (Except.ok (), memWrite s1 ptr (rsValueFromTyIdx (jsTy v) idx))) = (.ok (), s2) ∧
      resolveJsValueFromRsValuePtr ptr s2 = (.ok v, s2) := by
  obtain ⟨idx, s1, halloc, hid32, hlen, hval, hmem⟩ := allocValue_ok v st hwf
  refine ⟨memWrite s1 ptr (rsValueFromTyIdx (jsTy v) idx), ?_, ?_⟩
  · rw [halloc]
    rfl
  · have hw64 : rsValueFromTyIdx (jsTy v) idx < 2 ^ 64 := by
      unfold rsValueFromTyIdx
      exact rsValueFromTyId_lt (jsTy v) (idx + ID_MAX) (jsTy_lt v) hid32
    have hc : memGetU64 (memWrite s1 ptr (rsValueFromTyIdx (jsTy v) idx)).mem ptr =
        rsValueFromTyIdx (jsTy v) idx := by
      simp only [memWrite]
      exact memGetU64_memSetU64 s1.mem ptr _ hw64
    have hnan : f64IsNaN (rsValueFromTyIdx (jsTy v) idx) = true := by
      unfold rsValueFromTyIdx
      exact f64IsNaN_mk (jsTy v) (idx + ID_MAX)
    unfold resolveJsValueFromRsValuePtr
    rw [hc, hnan]
    simp only [if_true]
    apply resolve_boxed (jsTy v) idx _ v hid32
    · simpa [memWrite] using hlen
    · simpa [memWrite] using hval

/-- A singleton or numeric write at `ptr` resolves back from `ptr`. -/
theorem write_resolve_const (st : GlueState) (ptr w : Nat) (v : JsValue)
    (hw : w < 2 ^ 64) (hnan : f64IsNaN w = true)
    (hres : ∀ s', resolveJsValueFromRsValue w s' = (.ok v, s')) :
    resolveJsValueFromRsValuePtr ptr (memWrite st ptr w) = (.ok v, memWrite st ptr w) := by
  have hc : memGetU64 (memWrite st ptr w).mem ptr = w := by
    simp only [memWrite]
    exact memGetU64_memSetU64 st.mem ptr w hw
  unfold resolveJsValueFromRsValuePtr
  rw [hc, hnan]
  simp only [if_true]
  exact hres _

/-- Encoding any storable value at `ptr` succeeds and decoding the cell
at `ptr` afterwards yields the value back (Lean equality on the model,
which refines host value-equality). -/
theorem store_resolve (st : GlueState) (ptr : Nat) (v : JsValue)
    (hwf : stateWF st = true) (hv : storable v = true) :
    ∃ s2, storeJsValueIntoRsValuePtr v ptr st = (.ok (), s2) ∧
      resolveJsValueFromRsValuePtr ptr s2 = (.ok v, s2) := by
  cases v with
  | undef =>
    exact ⟨memWrite st ptr UNDEFINED, rfl,
      write_resolve_const st ptr UNDEFINED .undef (by decide) (by decide)
        (fun s' => rfl)⟩
  | null =>
    exact ⟨memWrite st ptr NULL, rfl,
      write_resolve_const st ptr NULL .null (by decide) (by decide)
        (fun s' => rfl)⟩
  | boolean b =>
    cases b with
    | true =>
      exact ⟨memWrite st ptr TRUE, rfl,
        write_resolve_const st ptr TRUE (.boolean true) (by decide) (by decide)
          (fun s' => rfl)⟩
    | false =>
      exact ⟨memWrite st ptr FALSE, rfl,
        write_resolve_const st ptr FALSE (.boolean false) (by decide) (by decide)
          (fun s' => rfl)⟩
  | number n =>
    cases n with
    | nan =>
      exact ⟨memWrite st ptr NAN, rfl,
        write_resolve_const st ptr NAN (.number .nan) (by decide) (by decide)
          (fun s' => rfl)⟩
    | val bits =>
      have hb : bits < 2 ^ 64 ∧ f64IsNaN bits = false := by
        unfold storable at hv
        rw [Bool.and_eq_true, decide_eq_true_eq, Bool.not_eq_true'] at hv
        exact hv
      refine ⟨memWrite st ptr bits, rfl, ?_⟩
      have hc : memGetU64 (memWrite st ptr bits).mem ptr = bits := by
        simp only [memWrite]
        exact memGetU64_memSetU64 st.mem ptr bits hb.1
      unfold resolveJsValueFromRsValuePtr
      rw [hc, hb.2]
      simp
  | globalObj => simp [storable] at hv
  | glueObj => simp [storable] at hv
  | str a => exact alloc_write_resolve st ptr (.str a) hwf
  | obj a => exact alloc_write_resolve st ptr (.obj a) hwf
  | fn a => exact alloc_write_resolve st ptr (.fn a) hwf
  | err a => exact alloc_write_resolve st ptr (.err a) hwf
  | closure a b => exact alloc_write_resolve st ptr (.closure a b) hwf

/-! ### Supporting equations for the boxed encode path -/

/-- On every boxed kind the encoder takes the alloc-then-write branch. -/
theorem store_boxed_eq (v : JsValue) (ptr : Nat) (st : GlueState)
    (hb : boxedKind v = true) :
    storeJsValueIntoRsValuePtr v ptr st =
      andThen (allocValue v st) fun idx s1 =>
        (.ok (), memWrite s1 ptr (rsValueFromTyIdx (jsTy v) idx)) := by
  cases v with
  | str a => rfl
  | obj a => rfl
  | fn a => rfl
  | err a => rfl
  | closure a b => rfl
  | boolean b => cases b <;> simp [boxedKind] at hb
  | number n => cases n <;> simp [boxedKind] at hb
  | undef => simp [boxedKind] at hb
  | null => simp [boxedKind] at hb
  | globalObj => simp [boxedKind] at hb
  | glueObj => simp [boxedKind] at hb

/-! ### Claim theorems -/

/-- C1 (amended): for every host value that is a non-NaN number, a
string, a boolean, null or undefined, decoding the wire value written by
the encoder yields the value back; decoding the fixed GLOBAL and GLUE
singleton patterns yields the global object and the bridge object; but
encoding the global object or the bridge object itself raises a fatal
assertion error instead of producing their singleton patterns. -/
theorem spec_c1_roundtrip (st : GlueState) (ptr : Nat) (v : JsValue)
    (hwf : stateWF st = true) (hv : roundTrippable v = true) :
    (∃ s2, storeJsValueIntoRsValuePtr v ptr st = (.ok (), s2) ∧
       resolveJsValueFromRsValuePtr ptr s2 = (.ok v, s2)) ∧
    resolveJsValueFromRsValue GLOBAL st = (.ok .globalObj, st) ∧
    resolveJsValueFromRsValue GLUE st = (.ok .glueObj, st) ∧
    (storeJsValueIntoRsValuePtr .globalObj ptr st).1 = .error assertFail ∧
    (storeJsValueIntoRsValuePtr .glueObj ptr st).1 = .error assertFail := by
  refine ⟨?_, rfl, rfl, rfl, rfl⟩
  apply store_resolve st ptr v hwf
  cases v <;> try simp_all [roundTrippable, storable]
  rename_i n
  cases n <;> simp_all [roundTrippable, storable]

/-- C1 witness: the round trip at a concrete state and value. -/
theorem spec_c1_roundtrip_witness :
    ∃ s2, storeJsValueIntoRsValuePtr (.str "hi") 0 initState = (.ok (), s2) ∧
      resolveJsValueFromRsValuePtr 0 s2 = (.ok (.str "hi"), s2) :=
  (spec_c1_roundtrip initState 0 (.str "hi") (by decide) (by decide)).1

/-- C1 counterexample: the encoder rejects the global object and the
glue object with a fatal assertion, and in particular does not write
their singleton wire patterns. -/
theorem spec_c1_counterexample :
    (storeJsValueIntoRsValuePtr .globalObj 0 initState).1 = .error assertFail ∧
    memGetU64 (storeJsValueIntoRsValuePtr .globalObj 0 initState).2.mem 0 ≠ GLOBAL ∧
    (storeJsValueIntoRsValuePtr .glueObj 0 initState).1 = .error assertFail := by
  refine ⟨rfl, ?_, rfl⟩
  decide

/-- C4: encoding the host number NaN writes exactly the reserved
canonical NAN pattern, that pattern differs from every dynamic tagged
pattern, and decoding the cell yields NaN again. -/
theorem spec_c4_nan_canonical (st : GlueState) (ptr : Nat) :
    ∃ s2, storeJsValueIntoRsValuePtr (.number .nan) ptr st = (.ok (), s2) ∧
      memGetU64 s2.mem ptr = NAN ∧
      (∀ ty idx, idx + ID_MAX < 2 ^ 32 → rsValueFromTyIdx ty idx ≠ NAN) ∧
      resolveJsValueFromRsValuePtr ptr s2 = (.ok (.number .nan), s2) := by
  refine ⟨memWrite st ptr NAN, rfl, ?_, ?_, ?_⟩
  · simp only [memWrite]
    exact memGetU64_memSetU64 st.mem ptr NAN (by decide)
  · intro ty idx hidx heq
    have hid : rsValueId (rsValueFromTyIdx ty idx) = idx + ID_MAX := by
      unfold rsValueFromTyIdx
      exact rsValueId_mk ty (idx + ID_MAX) hidx
    rw [heq] at hid
    have h3 : rsValueId NAN = 3 := by decide
    rw [h3] at hid
    unfold ID_MAX at hid
    omega
  · exact write_resolve_const st ptr NAN (.number .nan) (by decide) (by decide)
      (fun s' => rfl)

/-- C4 witness at a concrete state and pointer. -/
theorem spec_c4_nan_canonical_witness :
    ∃ s2, storeJsValueIntoRsValuePtr (.number .nan) 8 initState = (.ok (), s2) ∧
      memGetU64 s2.mem 8 = NAN ∧
      (∀ ty idx, idx + ID_MAX < 2 ^ 32 → rsValueFromTyIdx ty idx ≠ NAN) ∧
      resolveJsValueFromRsValuePtr 8 s2 = (.ok (.number .nan), s2) :=
  spec_c4_nan_canonical initState 8

/-- C9: every tagged wire value the encoder produces for a boxed host
value carries id = table index + ID_MAX, so its id is at least ID_MAX,
it is not a predefined pattern, it differs from all seven singleton
patterns, and decoding it reads back exactly the allocated table slot. -/
theorem spec_c9_tagged_ids (st : GlueState) (ptr : Nat) (v : JsValue)
    (hwf : stateWF st = true) (hb : boxedKind v = true) :
    ∃ idx s2,
      storeJsValueIntoRsValuePtr v ptr st = (.ok (), s2) ∧
      memGetU64 s2.mem ptr = rsValueFromTyIdx (jsTy v) idx ∧
      rsValueId (rsValueFromTyIdx (jsTy v) idx) = idx + ID_MAX ∧
      ID_MAX ≤ rsValueId (rsValueFromTyIdx (jsTy v) idx) ∧
      rsValueIsPredefined (rsValueFromTyIdx (jsTy v) idx) = false ∧
      (∀ w ∈ [UNDEFINED, NULL, NAN, TRUE, FALSE, GLOBAL, GLUE],
        rsValueFromTyIdx (jsTy v) idx ≠ w) ∧
      s2.values.getD idx .undef = v ∧
      resolveJsValueFromRsValue (rsValueFromTyIdx (jsTy v) idx) s2 = (.ok v, s2) := by
  obtain ⟨idx, s1, halloc, hid32, hlen, hval, hmem⟩ := allocValue_ok v st hwf
  have hid : rsValueId (rsValueFromTyIdx (jsTy v) idx) = idx + ID_MAX := by
    unfold rsValueFromTyIdx
    exact rsValueId_mk (jsTy v) (idx + ID_MAX) hid32
  have hne : ∀ (c cid : Nat), rsValueId c = cid → cid < ID_MAX →
      rsValueFromTyIdx (jsTy v) idx ≠ c := by
    intro c cid hc hcid heq
    have hid' := hid
    rw [heq, hc] at hid'
    unfold ID_MAX at hcid hid'
    omega
  have hw64 : rsValueFromTyIdx (jsTy v) idx < 2 ^ 64 := by
    unfold rsValueFromTyIdx
    exact rsValueFromTyId_lt (jsTy v) (idx + ID_MAX) (jsTy_lt v) hid32
  refine ⟨idx, memWrite s1 ptr (rsValueFromTyIdx (jsTy v) idx), ?_, ?_, hid, ?_, ?_, ?_, ?_, ?_⟩
  · rw [store_boxed_eq v ptr st hb, halloc]
    rfl
  · simp only [memWrite]
    exact memGetU64_memSetU64 s1.mem ptr _ hw64
  · rw [hid]
    unfold ID_MAX
    omega
  · unfold rsValueIsPredefined
    rw [hid]
    simp only [decide_eq_false_iff_not]
    unfold ID_MAX
    omega
  · intro w hw
    simp only [List.mem_cons, List.not_mem_nil, or_false] at hw
    rcases hw with h | h | h | h | h | h | h <;> subst h
    · exact hne UNDEFINED 1 (by decide) (by decide)
    · exact hne NULL 2 (by decide) (by decide)
    · exact hne NAN 3 (by decide) (by decide)
    · exact hne TRUE 4 (by decide) (by decide)
    · exact hne FALSE 5 (by decide) (by decide)
    · exact hne GLOBAL 6 (by decide) (by decide)
    · exact hne GLUE 7 (by decide) (by decide)
  · simpa [memWrite] using hval
  · apply resolve_boxed (jsTy v) idx _ v hid32
    · simpa [memWrite] using hlen
    · simpa [memWrite] using hval

/-- C9 witness at a concrete state and value. -/
theorem spec_c9_tagged_ids_witness :
    ∃ idx s2,
      storeJsValueIntoRsValuePtr (.obj 5) 0 initState = (.ok (), s2) ∧
      memGetU64 s2.mem 0 = rsValueFromTyIdx (jsTy (.obj 5)) idx ∧
      rsValueId (rsValueFromTyIdx (jsTy (.obj 5)) idx) = idx + ID_MAX ∧
      ID_MAX ≤ rsValueId (rsValueFromTyIdx (jsTy (.obj 5)) idx) ∧
      rsValueIsPredefined (rsValueFromTyIdx (jsTy (.obj 5)) idx) = false ∧
      (∀ w ∈ [UNDEFINED, NULL, NAN, TRUE, FALSE, GLOBAL, GLUE],
        rsValueFromTyIdx (jsTy (.obj 5)) idx ≠ w) ∧
      s2.values.getD idx .undef = (.obj 5) ∧
      resolveJsValueFromRsValue (rsValueFromTyIdx (jsTy (.obj 5)) idx) s2 =
        (.ok (.obj 5), s2) :=
  spec_c9_tagged_ids initState 0 (.obj 5) (by decide) (by decide)

/-! ### Pair reconstruction for read-only resolutions -/

theorem resolve_pair (w : Nat) (st : GlueState) (r : Except JsValue JsValue)
    (h : (resolveJsValueFromRsValue w st).1 = r) :
    resolveJsValueFromRsValue w st = (r, st) := by
  have h2 := resolveJsValueFromRsValue_ro w st
  rcases hx : resolveJsValueFromRsValue w st with ⟨a, b⟩
  rw [hx] at h h2
  simp only at h h2
  rw [h, h2]

theorem resolveArgs_pair (argsPtr argsLen : Nat) (st : GlueState)
    (r : Except JsValue (List JsValue))
    (h : (resolveArgs argsPtr argsLen st).1 = r) :
    resolveArgs argsPtr argsLen st = (r, st) := by
  have h2 := resolveArgs_ro argsPtr argsLen st
  rcases hx : resolveArgs argsPtr argsLen st with ⟨a, b⟩
  rw [hx] at h h2
  simp only at h h2
  rw [h, h2]

/-- Indices pushed by the growth loop lie in the new range. -/
theorem pushAsc_mem (start count j : Nat) (h : j ∈ pushAsc [] start count) :
    start ≤ j ∧ j < start + count := by
  induction count with
  | zero => simp [pushAsc] at h
  | succ k ih =>
    rw [pushAsc_succ] at h
    rcases List.mem_cons.mp h with h1 | h1
    · omega
    · have := ih h1
      omega

/-- C2 (amended): increment_ref_count and decrement_ref_count on a wire
value with a singleton id raise a fatal assertion error (from the
dynamic-index extraction) and leave the whole bridge state unchanged;
they do not return normally. -/
theorem spec_c2_singleton_fatal (ref : Nat) (st : GlueState)
    (h : rsValueIsPredefined ref = true) :
    increment_ref_count ref st = (.error assertFail, st) ∧
    decrement_ref_count ref st = (.error assertFail, st) := by
  have hidx : rsValueIdx ref = .error assertFail := by
    unfold rsValueIdx
    rw [h]
    simp
  constructor
  · unfold increment_ref_count
    rw [hidx]
  · unfold decrement_ref_count
    rw [hidx]

/-- C2 witness: the singleton NULL wire value at a concrete state. -/
theorem spec_c2_singleton_fatal_witness :
    increment_ref_count NULL initState = (.error assertFail, initState) ∧
    decrement_ref_count NULL initState = (.error assertFail, initState) :=
  spec_c2_singleton_fatal NULL initState (by decide)

/-- C2 counterexample: on the singleton UNDEFINED wire value the two
lifecycle imports do not return normally — they throw the assertion
error, refuting the claimed no-op behaviour. -/
theorem spec_c2_counterexample :
    (increment_ref_count UNDEFINED initState).1 = .error assertFail ∧
    (decrement_ref_count UNDEFINED initState).1 = .error assertFail := by
  constructor <;> rfl

/-- C5: decrement_ref_count on a dynamic wire value whose slot count is
already 0, or whose slot is not currently allocated (an array hole),
raises the fatal assertion instead of returning normally. -/
theorem spec_c5_overdecrement_fatal (st : GlueState) (ref : Nat)
    (hdyn : rsValueIsPredefined ref = false)
    (hrc : st.refCounts (rsValueId ref - ID_MAX) = RcVal.int 0 ∨
      st.refCounts (rsValueId ref - ID_MAX) = RcVal.undef) :
    (decrement_ref_count ref st).1 = .error assertFail := by
  have hidx : rsValueIdx ref = .ok (rsValueId ref - ID_MAX) := by
    unfold rsValueIdx
    rw [hdyn]
    simp
  unfold decrement_ref_count
  rw [hidx]
  rcases hrc with h | h <;> simp [h, rcSub1, rcGeZero]

/-- C5 witness: decrementing a handle whose index was never allocated
(the fresh state) aborts. -/
theorem spec_c5_overdecrement_fatal_witness :
    (decrement_ref_count (rsValueFromTyIdx TY_OBJECT 0) initState).1 = .error assertFail ∧ True :=
  ⟨spec_c5_overdecrement_fatal initState (rsValueFromTyIdx TY_OBJECT 0)
    (by decide) (Or.inr rfl), trivial⟩

/-- C7 (amended): growing an exhausted table pushes the new indices in
ascending order onto the free stack, so the allocation that triggered
growth returns the largest new index, and every index still on the free
list is smaller — the largest new index is reused first. -/
theorem spec_c7_growth_order (st : GlueState) (v : JsValue)
    (hempty : st.freeIndices = []) :
    ∃ s1, allocValue v st =
        (.ok (st.values.length + (max 1 st.values.length - 1)), s1) ∧
      s1.freeIndices = pushAsc [] st.values.length (max 1 st.values.length - 1) ∧
      ∀ j ∈ s1.freeIndices, j < st.values.length + (max 1 st.values.length - 1) := by
  set L := st.values.length with hL
  set δ := max 1 L with hδ
  have hδ1 : 1 ≤ δ := le_max_left 1 L
  have hpush : pushAsc ([] : List Nat) L δ =
      (L + (δ - 1)) :: pushAsc [] L (δ - 1) := by
    conv_lhs => rw [show δ = (δ - 1) + 1 from by omega]
    rw [pushAsc_succ]
  set sg : GlueState :=
    { st with
      values := st.values ++ List.replicate δ .undef,
      freeIndices := pushAsc [] L δ } with hsg
  have hglen : sg.values.length = L + δ := by
    simp [hsg, List.length_append, List.length_replicate, hL]
  have hgfree : sg.freeIndices = (L + (δ - 1)) :: pushAsc [] L (δ - 1) := by
    simp only [hsg]
    rw [hpush]
  have hgidx : L + (δ - 1) < sg.values.length := by
    rw [hglen]
    omega
  refine
    ⟨{ values := sg.values.set (L + (δ - 1)) v,
       refCounts := fun j => if j = L + (δ - 1) then .int 1 else sg.refCounts j,
       freeIndices := pushAsc [] L (δ - 1),
       mem := sg.mem }, ?_, rfl, ?_⟩
  · unfold allocValue
    rw [hempty]
    exact popAlloc_eq v sg (L + (δ - 1)) (pushAsc [] L (δ - 1)) hgfree hgidx
  · intro j hj
    have := pushAsc_mem L (δ - 1) j hj
    omega

/-- C7 witness: the growth allocation at a concrete two-slot state. -/
theorem spec_c7_growth_order_witness :
    ∃ s1, allocValue (.str "c") stateTwo =
        (.ok (stateTwo.values.length + (max 1 stateTwo.values.length - 1)), s1) ∧
      s1.freeIndices = pushAsc [] stateTwo.values.length (max 1 stateTwo.values.length - 1) ∧
      ∀ j ∈ s1.freeIndices, j < stateTwo.values.length + (max 1 stateTwo.values.length - 1) :=
  spec_c7_growth_order stateTwo (.str "c") rfl

/-- C7 counterexample: from a fresh bridge, the third allocation (the
first one whose growth creates more than one index, namely indices 2 and
3) returns index 3, not the smallest new index 2 — reuse is
largest-index-first, refuting the claimed smallest-index-first order. -/
theorem spec_c7_counterexample :
    (andThen (allocValue (.str "a") initState) fun _ s1 =>
     andThen (allocValue (.str "b") s1) fun _ s2 =>
     allocValue (.str "c") s2).1 = .ok 3 ∧
    ((andThen (allocValue (.str "a") initState) fun _ s1 =>
      andThen (allocValue (.str "b") s1) fun _ s2 =>
      allocValue (.str "c") s2).1 ≠ .ok 2) := by
  have hval : (andThen (allocValue (.str "a") initState) fun _ s1 =>
      andThen (allocValue (.str "b") s1) fun _ s2 =>
      allocValue (.str "c") s2).1 = Except.ok 3 := rfl
  refine ⟨hval, ?_⟩
  rw [hval]
  simp

/-- C3 (amended): a host function that throws a value the encoder can
store (anything except the global and glue objects) makes `call` return
success = false with the thrown value encoded at the out-pointer, and
makes `construct` do the same; no exception escapes in that case. -/
theorem spec_c3_call_failure (env : GlueEnv) (st : GlueState)
    (ref argsPtr argsLen outPtr fid : Nat) (args : List JsValue) (e : JsValue)
    (hwf : stateWF st = true)
    (htarget : (resolveJsValueFromRsValue ref st).1 = .ok (.fn fid))
    (hargs : (resolveArgs argsPtr argsLen st).1 = .ok args)
    (hthrow : env.funcs fid args = .error e)
    (hthrowc : env.constructs fid args = .error e)
    (he : storable e = true) :
    (∃ s2, call env ref argsPtr argsLen outPtr st = (.ok false, s2) ∧
       resolveJsValueFromRsValuePtr outPtr s2 = (.ok e, s2)) ∧
    (∃ s3, construct env ref argsPtr argsLen outPtr st = (.ok false, s3) ∧
       resolveJsValueFromRsValuePtr outPtr s3 = (.ok e, s3)) := by
  obtain ⟨s2, hstore, hres⟩ := store_resolve st outPtr e hwf he
  have ht := resolve_pair ref st _ htarget
  have ha := resolveArgs_pair argsPtr argsLen st _ hargs
  constructor
  · refine ⟨s2, ?_, hres⟩
    unfold call
    rw [ht]
    simp only [andThen]
    rw [ha]
    simp only [andThen, jsApplyPure]
    rw [hthrow]
    simp only [andThen, orCatch]
    rw [hstore]
  · refine ⟨s2, ?_, hres⟩
    unfold construct
    rw [ht]
    simp only [andThen]
    rw [ha]
    simp only [andThen, jsConstructPure]
    rw [hthrowc]
    simp only [andThen, orCatch]
    rw [hstore]

/-- C3 witness: a concrete throwing host function, with the thrown
string decoded back from the out-pointer. -/
theorem spec_c3_call_failure_witness :
    (∃ s2, call envBoom (rsValueFromTyIdx TY_FUNCTION 0) 0 0 8 stateFn0 = (.ok false, s2) ∧
       resolveJsValueFromRsValuePtr 8 s2 = (.ok (.str "boom"), s2)) ∧
    (∃ s3, construct envBoom (rsValueFromTyIdx TY_FUNCTION 0) 0 0 8 stateFn0 = (.ok false, s3) ∧
       resolveJsValueFromRsValuePtr 8 s3 = (.ok (.str "boom"), s3)) :=
  spec_c3_call_failure envBoom stateFn0 (rsValueFromTyIdx TY_FUNCTION 0) 0 0 8 0 []
    (.str "boom") (by decide) (by rfl) (by rfl) (by rfl) (by rfl) (by rfl)

/-- C3 counterexample: a host function that throws the global object
makes the catch-path encoder assert, and that assertion error escapes
the `call` import — refuting the unconditional claim that no host
exception propagates out. -/
theorem spec_c3_counterexample :
    (call envThrowsGlobal (rsValueFromTyIdx TY_FUNCTION 0) 0 0 8 stateFn0).1 =
      .error assertFail := by rfl

/-- C10: when decoding the callee reference, or decoding any argument
cell, itself raises a host error (for example an out-of-range table
index), the error is caught by the protected region of `call` and
`construct`, encoded into the out-pointer, and reported as
success = false. -/
theorem spec_c10_decode_error_caught (env : GlueEnv) (st : GlueState)
    (ref argsPtr argsLen outPtr : Nat) (m : String)
    (hwf : stateWF st = true)
    (hdec : (resolveJsValueFromRsValue ref st).1 = .error (.err m) ∨
      (∃ t, (resolveJsValueFromRsValue ref st).1 = .ok t ∧
        (resolveArgs argsPtr argsLen st).1 = .error (.err m))) :
    (∃ s2, call env ref argsPtr argsLen outPtr st = (.ok false, s2) ∧
       resolveJsValueFromRsValuePtr outPtr s2 = (.ok (.err m), s2)) ∧
    (∃ s3, construct env ref argsPtr argsLen outPtr st = (.ok false, s3) ∧
       resolveJsValueFromRsValuePtr outPtr s3 = (.ok (.err m), s3)) := by
  obtain ⟨s2, hstore, hres⟩ := store_resolve st outPtr (.err m) hwf rfl
  rcases hdec with h | ⟨t, h1, h2⟩
  · have ht := resolve_pair ref st _ h
    constructor
    · refine ⟨s2, ?_, hres⟩
      unfold call
      rw [ht]
      simp only [andThen, orCatch]
      rw [hstore]
    · refine ⟨s2, ?_, hres⟩
      unfold construct
      rw [ht]
      simp only [andThen, orCatch]
      rw [hstore]
  · have ht := resolve_pair ref st _ h1
    have ha := resolveArgs_pair argsPtr argsLen st _ h2
    constructor
    · refine ⟨s2, ?_, hres⟩
      unfold call
      rw [ht]
      simp only [andThen]
      rw [ha]
      simp only [andThen, orCatch]
      rw [hstore]
    · refine ⟨s2, ?_, hres⟩
      unfold construct
      rw [ht]
      simp only [andThen]
      rw [ha]
      simp only [andThen, orCatch]
      rw [hstore]

/-- C10 witness: on a fresh (empty-table) bridge, the handle with
dynamic index 0 is out of range, the resulting RangeError is caught and
reported as a failed call with the error at the out-pointer. -/
theorem spec_c10_decode_error_caught_witness :
    (∃ s2, call envInert (rsValueFromTyIdx TY_OBJECT 0) 0 0 8 initState = (.ok false, s2) ∧
       resolveJsValueFromRsValuePtr 8 s2 = (.ok (.err "RangeError"), s2)) ∧
    (∃ s3, construct envInert (rsValueFromTyIdx TY_OBJECT 0) 0 0 8 initState = (.ok false, s3) ∧
       resolveJsValueFromRsValuePtr 8 s3 = (.ok (.err "RangeError"), s3)) :=
  spec_c10_decode_error_caught envInert initState (rsValueFromTyIdx TY_OBJECT 0) 0 0 8
    "RangeError" (by decide) (Or.inl (by rfl))

/-- C8: `closure_new` encodes a host-callable wrapper that remembers
exactly the module table index and context pointer; invoking the decoded
wrapper with any argument list gives the same result as with any other
argument list (the caller's arguments are discarded), and that result is
the module indirect-table call at `fnIdx` with `ctxPtr` as its sole
argument, returning undefined. -/
theorem spec_c8_closure (env : GlueEnv) (st : GlueState)
    (fnIdx ctxPtr outPtr : Nat) (hwf : stateWF st = true) :
    ∃ s2, closure_new fnIdx ctxPtr outPtr st = (.ok (), s2) ∧
      resolveJsValueFromRsValuePtr outPtr s2 = (.ok (.closure fnIdx ctxPtr), s2) ∧
      (∀ args args' : List JsValue,
        jsApplyPure env (.closure fnIdx ctxPtr) args =
          jsApplyPure env (.closure fnIdx ctxPtr) args') ∧
      (∀ args : List JsValue,
        jsApplyPure env (.closure fnIdx ctxPtr) args =
          match env.tableCall fnIdx ctxPtr with
          | .ok _ => .ok .undef
          | .error e => .error e) := by
  obtain ⟨s2, hstore, hres⟩ := store_resolve st outPtr (.closure fnIdx ctxPtr) hwf rfl
  exact ⟨s2, hstore, hres, fun _ _ => rfl, fun _ => rfl⟩

/-- C8 witness at concrete indices and state. -/
theorem spec_c8_closure_witness :
    ∃ s2, closure_new 4 7 0 initState = (.ok (), s2) ∧
      resolveJsValueFromRsValuePtr 0 s2 = (.ok (.closure 4 7), s2) ∧
      (∀ args args' : List JsValue,
        jsApplyPure envInert (.closure 4 7) args =
          jsApplyPure envInert (.closure 4 7) args') ∧
      (∀ args : List JsValue,
        jsApplyPure envInert (.closure 4 7) args =
          match envInert.tableCall 4 7 with
          | .ok _ => .ok .undef
          | .error e => .error e) :=
  spec_c8_closure envInert initState 4 7 0 (by decide)

/-- C6: the source guard `assert(typeof value, "string")` passes the
always-truthy typeof string as the condition, so `string_get` on a
handle whose decoded value is a plain object (typeof "object", not
"string") does not raise the assertion — it returns normally and encodes
the coerced value, contradicting the claimed fatal type check. -/
theorem spec_c6_no_assert :
    jsTypeof (stateObj0.values.getD 0 .undef) ≠ "string" ∧
    (string_get envInert (rsValueFromTyIdx TY_OBJECT 0) 16 24 stateObj0).1 = .ok () := by
  constructor
  · decide
  · rfl
